import Mathlib

/-!
Shallow embedding of the fleethub repository: the on-robot reporter
(reporter.js), the Feishu-backed robot APIs (Vercel serverless handler and
Express server), and the Next.js dashboard pages (robot detail, workboard).
JavaScript truthiness and object-literal lookup are modelled explicitly where
the source relies on them.
-/

namespace FleetHub

/-- JavaScript `a || b` on strings: the empty string is the only falsy string. -/
def jsOrStr (a b : String) : String := if a = "" then b else a

/-! ## mapStatus (Vercel serverless handler, src/unnamed/part_000 first file) -/

/-- Exact-key lookup in an association list of strings, mirroring a JS object
literal used as a map. -/
def lookupStr (k : String) : List (String × String) → Option String
  | [] => none
  | (k', v) :: rest => if k = k' then some v else lookupStr k rest

/-- The `statusMap` object literal inside `mapStatus`. -/
def statusMap : List (String × String) :=
  [("Online", "在线"), ("online", "在线"),
   ("Offline", "离线"), ("offline", "离线"),
   ("执行中", "执行中"), ("running", "执行中")]

/-- `mapStatus(status)`: `if (!status) return '离线'; return statusMap[status] || status`.
The argument is `none` for JS `undefined`/`null`; `some ""` is the falsy empty
string. -/
def mapStatus (status : Option String) : String :=
  match status with
  | none => "离线"
  | some s =>
    if s = "" then "离线"
    else jsOrStr ((lookupStr s statusMap).getD "") s

/-! ## postData and report delivery (src/reporter/reporter.js) -/

/-- Outcome of one HTTP POST attempt, as the `postData` promise observes it:
a response with some status code and body, a socket error, or the 10s timeout. -/
inductive HttpOutcome where
  | response (statusCode : Nat) (body : String)
  | netError (msg : String)
  | timeout
deriving DecidableEq

/-- `postData`: resolves with `{status, body}` when `200 <= statusCode < 300`,
rejects with `HTTP <code>: <body>` otherwise, rejects on `error` events, and
rejects with `Request timeout` on the timeout event. -/
def postData (o : HttpOutcome) : Except String (Nat × String) :=
  match o with
  | .response s b =>
    if 200 ≤ s ∧ s < 300 then .ok (s, b)
    else .error ("HTTP " ++ toString s ++ ": " ++ b)
  | .netError m => .error m
  | .timeout => .error "Request timeout"

/-- The delivery step of `report()`: one `await postData(...)` inside
`try/catch`; success and failure are both reduced to a log line, so the
function is total (no exception escapes) and performs exactly one attempt. -/
def reportDelivery (ts : String) (o : HttpOutcome) : String :=
  match postData o with
  | .ok _ => "[" ++ ts ++ "] ✅ 状态上报成功"
  | .error m => "[" ++ ts ++ "] ❌ 上报失败: " ++ m

/-- C10: `mapStatus` is total (its codomain is `String`, never null/undefined);
falsy input gives 离线; the six literal keys map as listed; any other truthy
input is returned unchanged. -/
theorem mapStatus_total_spec :
    (mapStatus none = "离线" ∧ mapStatus (some "") = "离线")
    ∧ (mapStatus (some "Online") = "在线" ∧ mapStatus (some "online") = "在线")
    ∧ (mapStatus (some "Offline") = "离线" ∧ mapStatus (some "offline") = "离线")
    ∧ (mapStatus (some "running") = "执行中" ∧ mapStatus (some "执行中") = "执行中")
    ∧ (∀ s : String, s ≠ "" → lookupStr s statusMap = none → mapStatus (some s) = s) := by
  refine ⟨⟨rfl, rfl⟩, ⟨rfl, rfl⟩, ⟨rfl, rfl⟩, ⟨rfl, rfl⟩, ?_⟩
  intro s hs hl
  simp [mapStatus, hs, hl, jsOrStr]

/-- Witness for C10 at a concrete input outside the map. -/
theorem mapStatus_total_witness :
    mapStatus (some "CANCELLED") = "CANCELLED" :=
  mapStatus_total_spec.2.2.2.2 "CANCELLED" (by decide) (by decide)

/-- C4: `postData` resolves exactly on 2xx status codes, rejects on any other
status code, on network errors and on timeout; `report()` maps every outcome
to a log line (it is total, so no delivery failure propagates, and it makes a
single attempt). -/
theorem postData_delivery_spec :
    (∀ s b, (postData (.response s b)).isOk = true ↔ (200 ≤ s ∧ s < 300))
    ∧ (∀ m, postData (.netError m) = .error m)
    ∧ (postData .timeout = .error "Request timeout")
    ∧ (∀ ts o, (postData o).isOk = true →
        reportDelivery ts o = "[" ++ ts ++ "] ✅ 状态上报成功")
    ∧ (∀ ts o m, postData o = .error m →
        reportDelivery ts o = "[" ++ ts ++ "] ❌ 上报失败: " ++ m) := by
  refine ⟨?_, fun m => rfl, rfl, ?_, ?_⟩
  · intro s b
    constructor
    · intro h
      by_contra hc
      simp [postData, hc, Except.isOk, Except.toBool] at h
    · intro h
      simp [postData, h, Except.isOk, Except.toBool]
  · intro ts o h
    unfold reportDelivery
    cases ho : postData o with
    | ok v => rfl
    | error m => rw [ho] at h; simp [Except.isOk, Except.toBool] at h
  · intro ts o m h
    unfold reportDelivery
    rw [h]

/-- Witness for C4: a 204 response is a success, a 404 is not, and both sides
of `report()`'s try/catch produce the logged line. -/
theorem postData_delivery_witness :
    (postData (.response 204 "")).isOk = true
    ∧ ¬ ((postData (.response 404 "nf")).isOk = true)
    ∧ reportDelivery "t0" (.response 204 "") = "[t0] ✅ 状态上报成功"
    ∧ reportDelivery "t0" .timeout = "[t0] ❌ 上报失败: Request timeout" := by
  refine ⟨(postData_delivery_spec.1 204 "").mpr (by decide), ?_, ?_, ?_⟩
  · intro h
    have := (postData_delivery_spec.1 404 "nf").mp h
    omega
  · exact postData_delivery_spec.2.2.2.1 "t0" (.response 204 "") (by decide)
  · exact postData_delivery_spec.2.2.2.2 "t0" .timeout "Request timeout" rfl

/-! ## getAccessToken: process-wide cached Feishu credential
(src/unnamed/part_000, both the serverless handler and the Express server) -/

/-- The module-level mutable pair `accessToken` / `tokenExpireTime`
(initially `null` / `0`). -/
structure TokenState where
  accessToken : Option String
  tokenExpireTime : Int
deriving DecidableEq

/-- Body of a successful reply from the tenant_access_token endpoint. -/
structure TenantTokenResp where
  code : Int
  tenant_access_token : String
  expire : Int
deriving DecidableEq

/-- What the one `axios.post` inside `getAccessToken` can observe:
a reply (any `code`) or a thrown network error. -/
inductive TokenNet where
  | reply (r : TenantTokenResp)
  | netError
deriving DecidableEq

/-- Result of one call to `getAccessToken`: the returned value, the updated
module state, and whether a network request was performed. -/
structure TokenResult where
  token : Option String
  state : TokenState
  madeRequest : Bool
deriving DecidableEq

/-- The cache-miss path of `getAccessToken`: request a fresh token; on
`code === 0` cache it with `tokenExpireTime = Date.now() + (expire - 60) * 1000`
and return it; on non-zero code or a thrown error return `null` (the Express
variant throws on non-zero code, but its own `catch` also reduces that to
`null`). -/
def getAccessTokenFresh (st : TokenState) (now : Int) (net : TokenNet) : TokenResult :=
  match net with
  | .reply r =>
    if r.code = 0 then
      ⟨some r.tenant_access_token,
       ⟨some r.tenant_access_token, now + (r.expire - 60) * 1000⟩, true⟩
    else ⟨none, st, true⟩
  | .netError => ⟨none, st, true⟩

/-- `getAccessToken`: `if (accessToken && Date.now() < tokenExpireTime) return
accessToken;` — JS truthiness makes `null` and `""` both cache misses —
otherwise take the fresh path. -/
def getAccessToken (st : TokenState) (now : Int) (net : TokenNet) : TokenResult :=
  match st.accessToken with
  | some t =>
    if t ≠ "" ∧ now < st.tokenExpireTime then ⟨some t, st, false⟩
    else getAccessTokenFresh st now net
  | none => getAccessTokenFresh st now net

/-- The cached credential is stale or absent: nothing truthy is cached, or the
expiry instant has been reached. -/
def cacheMiss (st : TokenState) (now : Int) : Prop :=
  ∀ t, st.accessToken = some t → t = "" ∨ st.tokenExpireTime ≤ now

/-- C3: with a truthy cached token and `now` before the expiry instant, the
cached token is returned with no network request and unchanged state; on a
miss a request is made; on provider success (`code = 0`) the token is cached
with expiry set 60 seconds before the provider-reported expiry instant
`now + expire * 1000`; on provider failure or network error the call returns
`null` instead of throwing (its codomain carries no exception). -/
theorem getAccessToken_cache_spec :
    (∀ st now net t, st.accessToken = some t → t ≠ "" → now < st.tokenExpireTime →
       getAccessToken st now net = ⟨some t, st, false⟩)
    ∧ (∀ st now net, cacheMiss st now → (getAccessToken st now net).madeRequest = true)
    ∧ (∀ st now r, r.code = 0 → cacheMiss st now →
       getAccessToken st now (.reply r) =
         ⟨some r.tenant_access_token,
          ⟨some r.tenant_access_token, now + r.expire * 1000 - 60 * 1000⟩, true⟩)
    ∧ (∀ st now r, r.code ≠ 0 → cacheMiss st now →
       (getAccessToken st now (.reply r)).token = none)
    ∧ (∀ st now, cacheMiss st now → (getAccessToken st now .netError).token = none) := by
  have hmiss : ∀ st now (net : TokenNet), cacheMiss st now →
      getAccessToken st now net = getAccessTokenFresh st now net := by
    intro st now net hm
    unfold getAccessToken
    cases hst : st.accessToken with
    | none => rfl
    | some t =>
      rcases hm t hst with h | h
      · simp [h]
      · simp [not_lt.mpr h]
  refine ⟨?_, ?_, ?_, ?_, ?_⟩
  · intro st now net t hst ht hlt
    unfold getAccessToken
    rw [hst]
    simp [ht, hlt]
  · intro st now net hm
    rw [hmiss st now net hm]
    unfold getAccessTokenFresh
    cases net with
    | reply r =>
      by_cases hc : r.code = 0
      · simp [hc]
      · simp [hc]
    | netError => rfl
  · intro st now r hc hm
    rw [hmiss st now (.reply r) hm]
    unfold getAccessTokenFresh
    simp [hc]
    ring
  · intro st now r hc hm
    rw [hmiss st now (.reply r) hm]
    unfold getAccessTokenFresh
    simp [hc]
  · intro st now hm
    rw [hmiss st now .netError hm]
    rfl

/-- Witness for C3: a concrete cache hit, a successful refresh from the empty
initial state, and a failing refresh. -/
theorem getAccessToken_cache_witness :
    getAccessToken ⟨some "tok", 5000⟩ 100 .netError = ⟨some "tok", ⟨some "tok", 5000⟩, false⟩
    ∧ getAccessToken ⟨none, 0⟩ 100 (.reply ⟨0, "fresh", 7200⟩) =
        ⟨some "fresh", ⟨some "fresh", 100 + 7200 * 1000 - 60 * 1000⟩, true⟩
    ∧ (getAccessToken ⟨none, 0⟩ 100 (.reply ⟨99, "x", 7200⟩)).token = none
    ∧ (getAccessToken ⟨none, 0⟩ 100 .netError).token = none := by
  refine ⟨?_, ?_, ?_, ?_⟩
  · exact getAccessToken_cache_spec.1 ⟨some "tok", 5000⟩ 100 .netError "tok"
      rfl (by decide) (by decide)
  · exact getAccessToken_cache_spec.2.2.1 ⟨none, 0⟩ 100 ⟨0, "fresh", 7200⟩
      rfl (by intro t ht; cases ht)
  · exact getAccessToken_cache_spec.2.2.2.1 ⟨none, 0⟩ 100 ⟨99, "x", 7200⟩
      (by decide) (by intro t ht; cases ht)
  · exact getAccessToken_cache_spec.2.2.2.2 ⟨none, 0⟩ 100 (by intro t ht; cases ht)

/-! ## Express server `/api/robots` (src/unnamed/part_000 second file) -/

/-- A Bitable record field value as the server touches it. -/
inductive FieldVal where
  | str (s : String)
  | num (n : Int)
  | time (t : Int)
deriving DecidableEq

/-- The `fields` object of a Bitable record. -/
abbrev RecordFields := List (String × FieldVal)

/-- Body of a reply from the Bitable list-records endpoint. -/
structure BitableResp where
  code : Int
  msg : String
  items : List RecordFields
deriving DecidableEq

/-- What the `axios.get` inside `getRecords` can observe. -/
inductive BitableNet where
  | reply (r : BitableResp)
  | netError (msg : String)
deriving DecidableEq

/-- `getMockData()`: the fixed two-record dataset, with timestamps taken at
call time (`now`) and five minutes earlier. -/
def getMockData (now : Int) : List RecordFields :=
  [[("机器人ID", .str "robot-001"), ("名称", .str "大周"), ("状态", .str "在线"),
    ("当前任务", .str "监控任务"), ("任务进度", .num 75), ("CPU负载", .num 45),
    ("内存使用率", .num 62), ("问题状态", .str "正常"), ("最后活跃", .time now)],
   [("机器人ID", .str "robot-002"), ("名称", .str "默默"), ("状态", .str "执行中"),
    ("当前任务", .str "数据同步"), ("任务进度", .num 30), ("CPU负载", .num 78),
    ("内存使用率", .num 55), ("问题状态", .str "正常"), ("最后活跃", .time (now - 300000))]]

/-- JS truthiness of an optional string (`null`/`undefined` and `""` are falsy). -/
def truthyOptStr (o : Option String) : Bool :=
  match o with
  | none => false
  | some s => s != ""

/-- `getRecords()`: falsy token → mock data; thrown Bitable request → mock
data; non-zero Bitable `code` → mock data; otherwise the fetched items. -/
def getRecords (now : Int) (tok : Option String) (net : BitableNet) : List RecordFields :=
  if truthyOptStr tok = false then getMockData now
  else
    match net with
    | .reply r => if r.code = 0 then r.items else getMockData now
    | .netError _ => getMockData now

/-- An HTTP response of the `/api/robots` route: status plus JSON array body. -/
structure RobotsResponse where
  status : Nat
  body : List RecordFields
deriving DecidableEq

/-- The `app.get('/api/robots')` handler: `res.json(await getRecords())`.
`getRecords` is total (every failure path returns mock data), so the
surrounding `catch`/500 branch is unreachable and the reply is always 200. -/
def apiRobots (now : Int) (tok : Option String) (net : BitableNet) : RobotsResponse :=
  ⟨200, getRecords now tok net⟩

/-- C8: whenever the Feishu token is falsy, the Bitable request throws, or
Bitable answers with a non-zero code, `/api/robots` still responds 200 with
the fixed two-record mock dataset — a non-empty array. -/
theorem apiRobots_mock_fallback_spec :
    (∀ now net tok, truthyOptStr tok = false →
       apiRobots now tok net = ⟨200, getMockData now⟩)
    ∧ (∀ now tok m, apiRobots now tok (.netError m) = ⟨200, getMockData now⟩)
    ∧ (∀ now tok r, r.code ≠ 0 → apiRobots now tok (.reply r) = ⟨200, getMockData now⟩)
    ∧ (∀ now, (getMockData now).length = 2 ∧ (getMockData now).length ≠ 0) := by
  refine ⟨?_, ?_, ?_, fun now => ⟨rfl, by simp [getMockData]⟩⟩
  · intro now net tok h
    unfold apiRobots getRecords
    rw [h]
    simp
  · intro now tok m
    unfold apiRobots getRecords
    by_cases h : truthyOptStr tok = false
    · rw [h]; simp
    · simp [h]
  · intro now tok r hc
    unfold apiRobots getRecords
    by_cases h : truthyOptStr tok = false
    · rw [h]; simp
    · simp [h, hc]

/-- Witness for C8: the three failure shapes at concrete inputs. -/
theorem apiRobots_mock_fallback_witness :
    apiRobots 0 none (.reply ⟨0, "", [[]]⟩) = ⟨200, getMockData 0⟩
    ∧ apiRobots 0 (some "t") (.netError "ECONNREFUSED") = ⟨200, getMockData 0⟩
    ∧ apiRobots 0 (some "t") (.reply ⟨99, "forbidden", []⟩) = ⟨200, getMockData 0⟩ :=
  ⟨apiRobots_mock_fallback_spec.1 0 (.reply ⟨0, "", [[]]⟩) none rfl,
   apiRobots_mock_fallback_spec.2.1 0 (some "t") "ECONNREFUSED",
   apiRobots_mock_fallback_spec.2.2.1 0 (some "t") ⟨99, "forbidden", []⟩ (by decide)⟩

/-! ## JSON values with JavaScript truthiness -/

/-- A JSON value as the reporter and the dashboard handle it. -/
inductive JVal where
  | null
  | bool (b : Bool)
  | str (s : String)
  | num (n : Int)
  | arr (xs : List JVal)
  | obj (fields : List (String × JVal))

/-- Field lookup in a JSON object field list. -/
def jGetField (k : String) : List (String × JVal) → Option JVal
  | [] => none
  | (k', v) :: rest => if k = k' then some v else jGetField k rest

/-- JS truthiness of a JSON value (`null`, `false`, `""` and `0` are falsy;
arrays and objects are always truthy). -/
def jTruthy : JVal → Bool
  | .null => false
  | .bool b => b
  | .str s => s != ""
  | .num n => n != 0
  | .arr _ => true
  | .obj _ => true

/-- JS truthiness of `x.k`: property access on a non-object, or a missing
property, yields `undefined`, which is falsy. -/
def jFieldTruthy (j : JVal) (k : String) : Bool :=
  match j with
  | .obj fs =>
    match jGetField k fs with
    | some v => jTruthy v
    | none => false
  | _ => false

/-! ## Reporter payload (src/reporter/reporter.js `report()` and CONFIG) -/

/-- The reporter process environment and `os` facts it reads. -/
structure ReporterEnv where
  robotIdEnv : Option String
  hostname : String
  platform : String
deriving DecidableEq

/-- `CONFIG.ROBOT_ID`: `process.env.ROBOT_ID || os.hostname()` (an unset or
empty variable falls back to the OS hostname). -/
def configRobotId (e : ReporterEnv) : String :=
  jsOrStr (e.robotIdEnv.getD "") e.hostname

/-- What one `execSync('openclaw ... --json')` call produces: parsed JSON on
success, or the thrown exception's message. -/
inductive ExecOutcome where
  | parsed (j : JVal)
  | threw (msg : String)

/-- `getOpenClawHealth()`: the parsed JSON, or `{ error: e.message }`. -/
def getOpenClawHealth (o : ExecOutcome) : JVal :=
  match o with
  | .parsed j => j
  | .threw m => .obj [("error", .str m)]

/-- `getOpenClawStatus()`: the parsed JSON, or `{ error: e.message }`. -/
def getOpenClawStatus (o : ExecOutcome) : JVal :=
  match o with
  | .parsed j => j
  | .threw m => .obj [("error", .str m)]

/-- The four `os` metrics sampled by `report()` (values kept opaque). -/
structure OsMetrics where
  uptime : JVal
  loadavg : JVal
  totalmem : JVal
  freemem : JVal

/-- The payload object literal built by `report()`, in source order; `status`
is `status.error ? null : status`. -/
def reportPayload (e : ReporterEnv) (ts : String) (healthOut statusOut : ExecOutcome)
    (m : OsMetrics) : List (String × JVal) :=
  let health := getOpenClawHealth healthOut
  let status := getOpenClawStatus statusOut
  [("robot_id", .str (configRobotId e)),
   ("hostname", .str e.hostname),
   ("platform", .str e.platform),
   ("report_at", .str ts),
   ("health", health),
   ("status", if jFieldTruthy status "error" then .null else status),
   ("metrics", .obj [("uptime", m.uptime), ("loadavg", m.loadavg),
                     ("totalmem", m.totalmem), ("freemem", m.freemem)])]

/-- C2: the payload has exactly the seven keys in source order; `robot_id` is
the `ROBOT_ID` variable when set non-empty, the OS hostname otherwise, hence
non-empty whenever the hostname is; `report_at` is the timestamp taken at
collection time; and when status collection threw (with the exception's
non-empty message) the `status` field is `null`. -/
theorem reportPayload_fields_spec :
    (∀ e ts h s m, (reportPayload e ts h s m).map Prod.fst =
       ["robot_id", "hostname", "platform", "report_at", "health", "status", "metrics"])
    ∧ (∀ e v, e.robotIdEnv = some v → v ≠ "" → configRobotId e = v)
    ∧ (∀ e, (e.robotIdEnv = none ∨ e.robotIdEnv = some "") → configRobotId e = e.hostname)
    ∧ (∀ e, e.hostname ≠ "" → configRobotId e ≠ "")
    ∧ (∀ e ts h s m, jGetField "report_at" (reportPayload e ts h s m) = some (.str ts))
    ∧ (∀ e ts h m msg, msg ≠ "" →
       jGetField "status" (reportPayload e ts h (.threw msg) m) = some .null) := by
  refine ⟨fun e ts h s m => rfl, ?_, ?_, ?_, ?_, ?_⟩
  · intro e v hv hne
    simp [configRobotId, hv, jsOrStr, hne]
  · intro e hv
    rcases hv with hv | hv <;> simp [configRobotId, hv, jsOrStr]
  · intro e hh
    unfold configRobotId jsOrStr
    split
    · exact hh
    · assumption
  · intro e ts h s m
    rfl
  · intro e ts h m msg hmsg
    have ht : jFieldTruthy (getOpenClawStatus (.threw msg)) "error" = true := by
      simp [getOpenClawStatus, jFieldTruthy, jGetField, jTruthy, hmsg]
    simp [reportPayload, ht, jGetField]

/-- Witness for C2 at concrete inputs: env-set id, unset id, and a failed
status collection. -/
theorem reportPayload_fields_witness :
    configRobotId ⟨some "r1", "host-a", "linux"⟩ = "r1"
    ∧ configRobotId ⟨none, "host-a", "linux"⟩ = "host-a"
    ∧ configRobotId ⟨none, "host-a", "linux"⟩ ≠ ""
    ∧ jGetField "status"
        (reportPayload ⟨none, "host-a", "linux"⟩ "2026-02-19T11:12:35.892Z"
          (.parsed (.obj [])) (.threw "Command failed") ⟨.num 1, .arr [], .num 2, .num 3⟩)
        = some .null := by
  refine ⟨?_, ?_, ?_, ?_⟩
  · exact reportPayload_fields_spec.2.1 ⟨some "r1", "host-a", "linux"⟩ "r1" rfl (by decide)
  · exact reportPayload_fields_spec.2.2.1 ⟨none, "host-a", "linux"⟩ (Or.inl rfl)
  · exact reportPayload_fields_spec.2.2.2.1 ⟨none, "host-a", "linux"⟩ (by decide)
  · exact reportPayload_fields_spec.2.2.2.2.2 ⟨none, "host-a", "linux"⟩
      "2026-02-19T11:12:35.892Z" (.parsed (.obj [])) ⟨.num 1, .arr [], .num 2, .num 3⟩
      "Command failed" (by decide)

/-! ## Robot detail page (src/unnamed/part_001, `getRobot` / `RobotDetail`) -/

/-- `x || d` for a possibly-undefined JSON property value. -/
def jsOrJ (x : Option JVal) (d : JVal) : JVal :=
  match x with
  | some v => if jTruthy v then v else d
  | none => d

/-- Property access `j.k` (undefined — `none` — on non-objects). -/
def jsField (j : JVal) (k : String) : Option JVal :=
  match j with
  | .obj fs => jGetField k fs
  | _ => none

/-- `getRobot(id)`: `null` when the response is not ok, the parsed JSON body
otherwise. -/
def getRobot (resOk : Bool) (body : JVal) : Option JVal :=
  if resOk then some body else none

/-- What the `RobotDetail` page renders. -/
inductive DetailView where
  | notFound
  | detail (robot report health metrics errs jobs : JVal)

/-- Whether a rendered view is the not-found view. -/
def isNotFound : DetailView → Bool
  | .notFound => true
  | _ => false

/-- `RobotDetail`: `if (!data || data.error)` renders the not-found header;
otherwise the detail view from `data.robot`, `data.latest_report || {}`,
`report.health || {}`, `report.metrics || {}`, `data.errors || []`,
`data.jobs || []`. -/
def renderRobotDetail (data : Option JVal) : DetailView :=
  match data with
  | none => .notFound
  | some d =>
    if jTruthy d = false then .notFound
    else if jFieldTruthy d "error" then .notFound
    else
      let report := jsOrJ (jsField d "latest_report") (.obj [])
      .detail ((jsField d "robot").getD .null) report
        (jsOrJ (jsField report "health") (.obj []))
        (jsOrJ (jsField report "metrics") (.obj []))
        (jsOrJ (jsField d "errors") (.arr []))
        (jsOrJ (jsField d "jobs") (.arr []))

/-- C5 counterexample: a 200 body that does contain an `error` field — with
the falsy value `null` — is rendered as the detail view, not the not-found
view, because the page tests `data.error` by JS truthiness. The claim's
"if and only if ... the JSON body contains an error field" is therefore false
as stated. -/
theorem robotDetail_error_field_counterexample :
    jGetField "error" [("error", JVal.null), ("robot", JVal.obj [("robot_id", JVal.str "r1")])]
      = some JVal.null
    ∧ isNotFound (renderRobotDetail (some (.obj [("error", .null),
        ("robot", .obj [("robot_id", .str "r1")])]))) = false :=
  ⟨rfl, rfl⟩

/-- C5 (amended): the page renders not-found exactly when `getRobot` returned
`null` or the object body carries a truthy `error` field; for object bodies
without one it renders the detail view, substituting `{}` for a missing
`latest_report` (and its `health`/`metrics`) and `[]` for missing `errors`
and `jobs`. -/
theorem robotDetail_render_spec :
    (∀ body, renderRobotDetail (getRobot false body) = .notFound)
    ∧ (∀ body, getRobot true body = some body)
    ∧ (∀ fs, isNotFound (renderRobotDetail (some (.obj fs)))
        = jFieldTruthy (.obj fs) "error")
    ∧ (∀ fs, jFieldTruthy (.obj fs) "error" = false →
        jGetField "latest_report" fs = none → jGetField "errors" fs = none →
        jGetField "jobs" fs = none →
        renderRobotDetail (some (.obj fs)) =
          .detail ((jGetField "robot" fs).getD .null)
            (.obj []) (.obj []) (.obj []) (.arr []) (.arr [])) := by
  refine ⟨fun body => rfl, fun body => rfl, ?_, ?_⟩
  · intro fs
    cases h : jFieldTruthy (.obj fs) "error" <;>
      simp [renderRobotDetail, jTruthy, h, isNotFound]
  · intro fs herr hlr he hj
    simp [renderRobotDetail, jTruthy, herr, jsField, hlr, he, hj, jsOrJ, jGetField]

/-- Witness for C5's amended theorem: a body with only a `robot` field renders
the detail view with all defaults filled in. -/
theorem robotDetail_render_witness :
    isNotFound (renderRobotDetail (some (.obj [("robot", .obj [("robot_id", .str "r1")])])))
      = jFieldTruthy (.obj [("robot", JVal.obj [("robot_id", JVal.str "r1")])]) "error"
    ∧ renderRobotDetail (some (.obj [("robot", .obj [("robot_id", .str "r1")])])) =
        .detail (.obj [("robot_id", .str "r1")]) (.obj []) (.obj []) (.obj [])
          (.arr []) (.arr []) := by
  refine ⟨robotDetail_render_spec.2.2.1 [("robot", .obj [("robot_id", .str "r1")])], ?_⟩
  exact robotDetail_render_spec.2.2.2 [("robot", .obj [("robot_id", .str "r1")])]
    rfl rfl rfl rfl

/-! ## Workboard page (src/apps/web/app — the Kanban grouping loop) -/

/-- A job record as the workboard touches it. -/
structure Job where
  job_id : String
  robot_id : String
  title : Option String
  status : Option String
  progress : Option Int
  stage : Option String
deriving DecidableEq

/-- The fixed `columns` array of the page, key and title, in render order. -/
def workboardColumns : List (String × String) :=
  [("BACKLOG", "Backlog"), ("ASSIGNED", "Assigned"), ("RUNNING", "Running"),
   ("BLOCKED", "Blocked"), ("DONE", "Done"), ("FAILED", "Failed")]

/-- The six column keys. -/
def columnKeys : List String := workboardColumns.map Prod.fst

/-- `j.status || 'BACKLOG'`. -/
def effStatus (j : Job) : String :=
  jsOrStr (j.status.getD "") "BACKLOG"

/-- The grouping record, an insertion-ordered map from status key to jobs. -/
abbrev Grouped := List (String × List Job)

/-- `grouped[k].push(j)`, creating `grouped[k] = []` first when absent. -/
def pushJob (g : Grouped) (k : String) (j : Job) : Grouped :=
  match g with
  | [] => [(k, [j])]
  | (k', l) :: rest =>
    if k = k' then (k', l ++ [j]) :: rest else (k', l) :: pushJob rest k j

/-- One iteration of the grouping loop. -/
def insertJob (g : Grouped) (j : Job) : Grouped :=
  pushJob g (effStatus j) j

/-- `grouped` seeded with the six empty columns, then the loop over `jobs`. -/
def groupJobs (jobs : List Job) : Grouped :=
  jobs.foldl insertJob (workboardColumns.map fun c => (c.1, []))

/-- `grouped[k] || []`. -/
def lookupGroup (k : String) : Grouped → List Job
  | [] => []
  | (k', l) :: rest => if k = k' then l else lookupGroup k rest

/-- The rendered board: `columns.map(col => ... grouped[col.key] ...)`. -/
def renderedColumns (jobs : List Job) : List (String × List Job) :=
  workboardColumns.map fun c => (c.1, lookupGroup c.1 (groupJobs jobs))

theorem lookupGroup_pushJob (g : Grouped) (k k' : String) (j : Job) :
    lookupGroup k (pushJob g k' j) =
      if k = k' then lookupGroup k g ++ [j] else lookupGroup k g := by
  induction g with
  | nil =>
    by_cases h : k = k' <;> simp [pushJob, lookupGroup, h]
  | cons p rest ih =>
    obtain ⟨k₀, l₀⟩ := p
    by_cases h1 : k' = k₀
    · by_cases h2 : k = k₀ <;> simp [pushJob, lookupGroup, h1, h2, h1 ▸ h2]
    · by_cases h2 : k = k₀
      · have h1' : ¬ k₀ = k' := fun he => h1 he.symm
        have hkk' : ¬ k = k' := fun he => h1 (he ▸ h2)
        simp [pushJob, lookupGroup, h1, h1', h2, hkk']
      · simp [pushJob, lookupGroup, h1, h2, ih]

theorem lookupGroup_foldl (jobs : List Job) :
    ∀ (g : Grouped) (k : String),
      lookupGroup k (jobs.foldl insertJob g) =
        lookupGroup k g ++ jobs.filter (fun j => effStatus j == k) := by
  induction jobs with
  | nil => intro g k; simp
  | cons j rest ih =>
    intro g k
    simp only [List.foldl_cons, ih, insertJob, lookupGroup_pushJob]
    by_cases h : k = effStatus j
    · simp [List.filter_cons, h, beq_iff_eq]
    · have : ¬ (effStatus j == k) = true := by simpa [beq_iff_eq] using fun he => h he.symm
      simp [List.filter_cons, h, this]

theorem lookupGroup_map_nil (k : String) (cs : List (String × String)) :
    lookupGroup k (cs.map fun c => (c.1, ([] : List Job))) = [] := by
  induction cs with
  | nil => rfl
  | cons c rest ih => by_cases h : k = c.1 <;> simp [lookupGroup, h, ih]

/-- The jobs shown in the column for key `k` are exactly the jobs whose
effective status is `k`, in input order. -/
theorem lookupGroup_groupJobs (jobs : List Job) (k : String) :
    lookupGroup k (groupJobs jobs) = jobs.filter (fun j => effStatus j == k) := by
  rw [groupJobs, lookupGroup_foldl, lookupGroup_map_nil, List.nil_append]

/-- C6: the board renders exactly the six fixed columns, in order; a job whose
`status` is one of the six keys is shown in the column equal to its status and
in no other column. -/
theorem workboard_grouping_spec :
    (∀ jobs, (renderedColumns jobs).map Prod.fst =
       ["BACKLOG", "ASSIGNED", "RUNNING", "BLOCKED", "DONE", "FAILED"])
    ∧ (∀ jobs j s, j ∈ jobs → j.status = some s → s ∈ columnKeys →
        (j ∈ lookupGroup s (groupJobs jobs)
         ∧ ∀ k, k ∈ columnKeys → k ≠ s → j ∉ lookupGroup k (groupJobs jobs))) := by
  constructor
  · intro jobs
    simp [renderedColumns, workboardColumns]
  · intro jobs j s hj hs hk
    have hne : s ≠ "" := by
      intro he
      rw [he] at hk
      simp [columnKeys, workboardColumns] at hk
    have heff : effStatus j = s := by
      simp [effStatus, hs, jsOrStr, hne]
    constructor
    · rw [lookupGroup_groupJobs]
      simp [List.mem_filter, hj, heff]
    · intro k hkmem hkne
      rw [lookupGroup_groupJobs]
      simp [List.mem_filter, heff]
      intro _
      exact fun he => hkne he.symm

/-- Witness for C6: a two-job board, each job landing only in its own column. -/
theorem workboard_grouping_witness :
    (renderedColumns [⟨"j1", "r1", none, some "RUNNING", none, none⟩]).map Prod.fst =
      ["BACKLOG", "ASSIGNED", "RUNNING", "BLOCKED", "DONE", "FAILED"]
    ∧ (⟨"j1", "r1", none, some "RUNNING", none, none⟩ : Job) ∈
        lookupGroup "RUNNING" (groupJobs [⟨"j1", "r1", none, some "RUNNING", none, none⟩])
    ∧ (⟨"j1", "r1", none, some "RUNNING", none, none⟩ : Job) ∉
        lookupGroup "DONE" (groupJobs [⟨"j1", "r1", none, some "RUNNING", none, none⟩]) := by
  have h := workboard_grouping_spec.2 [⟨"j1", "r1", none, some "RUNNING", none, none⟩]
    ⟨"j1", "r1", none, some "RUNNING", none, none⟩ "RUNNING"
    (List.mem_singleton.mpr rfl) rfl (by decide)
  exact ⟨workboard_grouping_spec.1 _, h.1, h.2 "DONE" (by decide) (by decide)⟩

/-- C9: a job with a truthy status outside the six keys is pushed into a
dynamically created group that no rendered column shows; a job with a missing
or empty status is rendered in the BACKLOG column. -/
theorem workboard_unknown_status_spec :
    (∀ jobs j s, j ∈ jobs → j.status = some s → s ≠ "" → s ∉ columnKeys →
        (j ∈ lookupGroup s (groupJobs jobs)
         ∧ ∀ p, p ∈ renderedColumns jobs → j ∉ p.2))
    ∧ (∀ jobs j, j ∈ jobs → (j.status = none ∨ j.status = some "") →
        j ∈ lookupGroup "BACKLOG" (groupJobs jobs)) := by
  constructor
  · intro jobs j s hj hs hne hk
    have heff : effStatus j = s := by
      simp [effStatus, hs, jsOrStr, hne]
    constructor
    · rw [lookupGroup_groupJobs]
      simp [List.mem_filter, hj, heff]
    · intro p hp
      simp only [renderedColumns, List.mem_map] at hp
      obtain ⟨c, hc, hcp⟩ := hp
      rw [← hcp]
      rw [lookupGroup_groupJobs]
      simp [List.mem_filter, heff]
      intro _
      intro he
      exact hk (he ▸ List.mem_map_of_mem Prod.fst hc)
  · intro jobs j hj hst
    have heff : effStatus j = "BACKLOG" := by
      rcases hst with h | h <;> simp [effStatus, h, jsOrStr]
    rw [lookupGroup_groupJobs]
    simp [List.mem_filter, hj, heff]

/-- Witness for C9: a CANCELLED job appears in no rendered column but sits in
the dynamic CANCELLED group; a status-less job lands in BACKLOG. -/
theorem workboard_unknown_status_witness :
    ((⟨"j2", "r1", none, some "CANCELLED", none, none⟩ : Job) ∈
        lookupGroup "CANCELLED" (groupJobs [⟨"j2", "r1", none, some "CANCELLED", none, none⟩])
      ∧ ∀ p, p ∈ renderedColumns [⟨"j2", "r1", none, some "CANCELLED", none, none⟩] →
          (⟨"j2", "r1", none, some "CANCELLED", none, none⟩ : Job) ∉ p.2)
    ∧ (⟨"j3", "r1", none, none, none, none⟩ : Job) ∈
        lookupGroup "BACKLOG" (groupJobs [⟨"j3", "r1", none, none, none, none⟩]) := by
  constructor
  · exact workboard_unknown_status_spec.1 [⟨"j2", "r1", none, some "CANCELLED", none, none⟩]
      ⟨"j2", "r1", none, some "CANCELLED", none, none⟩ "CANCELLED"
      (List.mem_singleton.mpr rfl) rfl (by decide) (by decide)
  · exact workboard_unknown_status_spec.2 [⟨"j3", "r1", none, none, none, none⟩]
      ⟨"j3", "r1", none, none, none, none⟩ (List.mem_singleton.mpr rfl) (Or.inl rfl)

/-! ## Reporter polling loop (src/reporter/reporter.js startup section) -/

/-- `CONFIG.INTERVAL`: `parseInt(process.env.REPORT_INTERVAL) || 30000`.
`none` stands for an unset or non-numeric variable (`parseInt` gives `NaN`,
which is falsy), and a parsed `0` is falsy too. -/
def configInterval (reportIntervalEnv : Option Int) : Int :=
  match reportIntervalEnv with
  | none => 30000
  | some n => if n = 0 then 30000 else n

/-- Start time of the k-th invocation of `report`: the startup call at time 0,
then `setInterval(report, interval)` firing at every period boundary. -/
def invocationStart (interval : Int) (k : Nat) : Int :=
  (k : Int) * interval

/-- Whether the scheduler starts the k-th invocation. `setInterval` invokes
its callback at every tick unconditionally — the async `report` returns a
promise at once and nothing inspects it — so every invocation starts. -/
def invocationStarts (_k : Nat) : Bool :=
  true

/-- Invocation `j` (of duration `dur j`) is still running at time `t`. -/
def stillRunningAt (interval : Int) (dur : Nat → Int) (j : Nat) (t : Int) : Prop :=
  invocationStart interval j ≤ t ∧ t < invocationStart interval j + dur j

/-- C7 counterexample: the claimed skip-if-still-running policy does not hold.
With the default 30000 ms period and an invocation that takes 70000 ms, the
startup invocation is still running when the first period elapses, yet the
next invocation is started anyway. -/
theorem reporter_skip_policy_counterexample :
    ¬ (∀ (interval : Int) (dur : Nat → Int) (k : Nat), 1 ≤ k →
        (∃ j, j < k ∧ stillRunningAt interval dur j (invocationStart interval k)) →
        invocationStarts k = false) := by
  intro h
  have := h 30000 (fun _ => 70000) 1 le_rfl
    ⟨0, Nat.zero_lt_one, by constructor <;> norm_num [invocationStart, stillRunningAt]⟩
  simp [invocationStarts] at this

/-- C7 (amended): `report()` runs once immediately at startup (time 0) and
thereafter at a fixed period (default 30000 ms when `REPORT_INTERVAL` is unset
or unparsable); every period boundary starts an invocation unconditionally, so
a still-running invocation is never skipped and overlap is possible. -/
theorem reporter_schedule_spec :
    invocationStart 30000 0 = 0
    ∧ (∀ (interval : Int) (k : Nat),
        invocationStart interval (k + 1) = invocationStart interval k + interval)
    ∧ (∀ k, invocationStarts k = true)
    ∧ (configInterval none = 30000 ∧ configInterval (some 0) = 30000)
    ∧ (∀ n, n ≠ 0 → configInterval (some n) = n)
    ∧ stillRunningAt 30000 (fun _ => 70000) 0 (invocationStart 30000 1) := by
  refine ⟨rfl, ?_, fun k => rfl, ⟨rfl, rfl⟩, ?_, ?_⟩
  · intro interval k
    unfold invocationStart
    push_cast
    ring
  · intro n hn
    simp [configInterval, hn]
  · constructor <;> norm_num [invocationStart, stillRunningAt]

/-- Witness for C7's amended theorem at a concrete parsed interval. -/
theorem reporter_schedule_witness :
    configInterval (some 5000) = 5000 :=
  reporter_schedule_spec.2.2.2.2.1 5000 (by decide)

/-! ## State Store liveness (ingest server, not among the given sources) -/

/-- Modelled from the spec: the ingest server implementing
`POST /api/ingest/health` and the State Store `upsertHealthReport` is not part
of the given sources (only the reporter that calls it is). Per the spec, the
per-robot state keeps `last_seen_at` (timestamp of last accepted report) and
report history. -/
structure RobotStoreState where
  last_seen_at : Option Int
  history : List Int
deriving DecidableEq

/-- Modelled from the spec: an accepted health report is always appended to
history, and `last_seen_at` advances to `report_at` unless the stored value is
newer (out-of-order reports must not overwrite a newer `last_seen_at`). -/
def upsertHealthReport (st : RobotStoreState) (report_at : Int) : RobotStoreState :=
  ⟨some (match st.last_seen_at with
         | none => report_at
         | some t => max t report_at),
   st.history ++ [report_at]⟩

/-- A fresh robot record fed the given sequence of `report_at` values. -/
def runReports (l : List Int) : RobotStoreState :=
  l.foldl upsertHealthReport ⟨none, []⟩

theorem foldl_upsert_last_seen (l : List Int) :
    ∀ (st : RobotStoreState) (t : Int), st.last_seen_at = some t →
      (l.foldl upsertHealthReport st).last_seen_at = some (l.foldl max t) := by
  induction l with
  | nil => intro st t h; simpa using h
  | cons a rest ih =>
    intro st t h
    simp only [List.foldl_cons]
    apply ih
    simp [upsertHealthReport, h]

theorem getLast?_of_chain_foldl_max :
    ∀ (rest : List Int) (a : Int), List.Chain' (· < ·) (a :: rest) →
      (a :: rest).getLast? = some (rest.foldl max a) := by
  intro rest
  induction rest with
  | nil => intro a _; rfl
  | cons b bs ih =>
    intro a hc
    have h1 : a < b := (List.chain'_cons.mp hc).1
    have h2 := (List.chain'_cons.mp hc).2
    rw [List.getLast?_cons_cons, ih b h2]
    simp [max_eq_right h1.le]

/-- C1: `last_seen_at` never decreases across accepted reports; a sequence of
reports with increasing `report_at` leaves `last_seen_at` equal to the latest
(last) `report_at`; an out-of-order report older than the stored value is
appended to history but leaves `last_seen_at` unchanged. -/
theorem last_seen_monotone_spec :
    (∀ st r t, st.last_seen_at = some t →
       ∃ t', (upsertHealthReport st r).last_seen_at = some t' ∧ t ≤ t')
    ∧ (∀ l, l ≠ [] → List.Chain' (· < ·) l →
       (runReports l).last_seen_at = l.getLast?)
    ∧ (∀ st r t, st.last_seen_at = some t → r < t →
       (upsertHealthReport st r).last_seen_at = some t
       ∧ (upsertHealthReport st r).history = st.history ++ [r]) := by
  refine ⟨?_, ?_, ?_⟩
  · intro st r t h
    exact ⟨max t r, by simp [upsertHealthReport, h], le_max_left t r⟩
  · intro l hne hc
    cases l with
    | nil => exact absurd rfl hne
    | cons a rest =>
      have hstep : (upsertHealthReport ⟨none, []⟩ a).last_seen_at = some a := rfl
      rw [runReports, List.foldl_cons, foldl_upsert_last_seen rest _ a hstep,
        getLast?_of_chain_foldl_max rest a hc]
  · intro st r t h hr
    refine ⟨?_, rfl⟩
    simp [upsertHealthReport, h, max_eq_left hr.le]

/-- Witness for C1: an increasing run `[3, 5, 9]` ends with `last_seen_at = 9`;
a late report with `report_at = 4` is kept in history but does not regress it. -/
theorem last_seen_monotone_witness :
    (runReports [3, 5, 9]).last_seen_at = some 9
    ∧ (upsertHealthReport ⟨some 9, [3, 5, 9]⟩ 4).last_seen_at = some 9
    ∧ (upsertHealthReport ⟨some 9, [3, 5, 9]⟩ 4).history = [3, 5, 9, 4] := by
  have h1 := last_seen_monotone_spec.2.1 [3, 5, 9] (by decide)
    (by simp [List.chain'_cons])
  have h3 := last_seen_monotone_spec.2.2 ⟨some 9, [3, 5, 9]⟩ 4 9 rfl (by decide)
  exact ⟨by rw [h1]; rfl, h3.1, by rw [h3.2]; rfl⟩

end FleetHub
